import Mathlib

/-!
Verification of the organ-console generator (organizer2).

Shallow embedding of the repository's pure computation layer:
* the AGO pedal pattern generator (`console_pedalboard.generate_ago_pattern`
  and its hand-copied twin `technical_drawing.generate_ago_pattern_for_exploded`),
* the 2D profile, hole placement and placement pipeline of `utils.create_board`
  (and the CadQuery variant in `organizer.create_board`),
* the pedalboard layout (`console_pedalboard.generate_console`) and its
  cut-list twin (`console_pedalboard.generate_board_list`),
* the keyboard white-key math of `keyboard.py`,
* the keyword-argument interface between the per-variant `generate_console`
  functions and `utils.create_board`.

Machine floats of the source are modelled as exact rationals; the CAD kernel
(build123d / CadQuery) is treated as an external collaborator, so boards are
modelled by the data the repository hands to it (profile vertices, hole
centers and radii, extrusion depths, rotation/translation pipeline), not by
B-rep solids.
-/

namespace Organizer

/-! ## AGO pedal pattern (console_pedalboard.generate_ago_pattern) -/

/-- The per-octave template of `generate_ago_pattern`
(`octave_pattern = "ststsb stststs b"`): 12 notes (`s`/`t`) plus two blanks. -/
def octave_pattern : String := "ststsb stststs b"

/-- The character loop of `generate_ago_pattern` that builds the trailing
part-octave: non-space characters are appended (counting `s`/`t` notes, with an
early exit once `remaining` notes were emitted); a space is appended only once
the accumulator is non-empty. -/
def agoTailLoop (remaining : Nat) : List Char → List Char → Nat → List Char
  | [], acc, _ => acc
  | c :: rest, acc, noteCount =>
    if c ≠ ' ' then
      let acc2 := acc ++ [c]
      if c = 's' ∨ c = 't' then
        if noteCount + 1 ≥ remaining then acc2
        else agoTailLoop remaining rest acc2 (noteCount + 1)
      else agoTailLoop remaining rest acc2 noteCount
    else if acc ≠ [] then agoTailLoop remaining rest (acc ++ [' ']) noteCount
    else agoTailLoop remaining rest acc noteCount

/-- Python's `str.strip()` on the part-octave (only spaces occur there). -/
def stripSpaces (l : List Char) : List Char :=
  ((l.dropWhile (fun c => c = ' ')).reverse.dropWhile (fun c => c = ' ')).reverse

/-- `console_pedalboard.generate_ago_pattern`: `number_of_notes / 12` copies of
the octave template, then (when `number_of_notes % 12 > 0`) a stripped
part-octave, joined with single spaces. -/
def generate_ago_pattern (number_of_notes : Nat) : String :=
  let notes_per_octave := 12
  let complete_octaves := number_of_notes / notes_per_octave
  let remaining_notes := number_of_notes % notes_per_octave
  let fullParts : List (List Char) := List.replicate complete_octaves octave_pattern.data
  let pattern_parts : List (List Char) :=
    if remaining_notes > 0 then
      fullParts ++ [stripSpaces (agoTailLoop remaining_notes octave_pattern.data [] 0)]
    else fullParts
  String.mk (List.intercalate [' '] pattern_parts)

/-- Count of `s` and `t` characters (notes) in a pattern string. -/
def noteCountOf (s : String) : Nat :=
  s.data.countP (fun c => c == 's' || c == 't')

/-! ## Hand-copied twin in technical_drawing.generate_ago_pattern_for_exploded -/

/-- The part-octave loop exactly as it re-appears in
`technical_drawing.generate_ago_pattern_for_exploded`. -/
def agoTailLoopExploded (remaining : Nat) : List Char → List Char → Nat → List Char
  | [], acc, _ => acc
  | c :: rest, acc, noteCount =>
    if c ≠ ' ' then
      let acc2 := acc ++ [c]
      if c = 's' ∨ c = 't' then
        if noteCount + 1 ≥ remaining then acc2
        else agoTailLoopExploded remaining rest acc2 (noteCount + 1)
      else agoTailLoopExploded remaining rest acc2 noteCount
    else if acc ≠ [] then agoTailLoopExploded remaining rest (acc ++ [' ']) noteCount
    else agoTailLoopExploded remaining rest acc noteCount

/-- `technical_drawing.generate_ago_pattern_for_exploded`, the second
hand-maintained copy of the AGO pattern algorithm. -/
def generate_ago_pattern_for_exploded (number_of_notes : Nat) : String :=
  let notes_per_octave := 12
  let complete_octaves := number_of_notes / notes_per_octave
  let remaining_notes := number_of_notes % notes_per_octave
  let fullParts : List (List Char) := List.replicate complete_octaves octave_pattern.data
  let pattern_parts : List (List Char) :=
    if remaining_notes > 0 then
      fullParts ++ [stripSpaces (agoTailLoopExploded remaining_notes octave_pattern.data [] 0)]
    else fullParts
  String.mk (List.intercalate [' '] pattern_parts)

/-- The two copies of the part-octave loop compute the same list. -/
theorem agoTailLoop_eq_exploded (remaining : Nat) :
    ∀ (l acc : List Char) (k : Nat),
      agoTailLoop remaining l acc k = agoTailLoopExploded remaining l acc k := by
  intro l
  induction l with
  | nil => intro acc k; rfl
  | cons c rest ih =>
    intro acc k
    simp only [agoTailLoop, agoTailLoopExploded]
    split_ifs <;> simp [ih]

/-- C2: for every `number_of_notes` in [1,36], the string returned by
`generate_ago_pattern` contains exactly `number_of_notes` occurrences of
`s` and `t` combined. -/
theorem ago_pattern_note_count (n : Nat) (h1 : 1 ≤ n) (h2 : n ≤ 36) :
    noteCountOf (generate_ago_pattern n) = n := by
  interval_cases n <;> decide

/-- Witness for C2 at the default pedalboard size `number_of_notes = 30`. -/
theorem ago_pattern_note_count_witness :
    1 ≤ 30 ∧ 30 ≤ 36 ∧ noteCountOf (generate_ago_pattern 30) = 30 :=
  ⟨by decide, by decide, ago_pattern_note_count 30 (by decide) (by decide)⟩

/-- C3 (counterexample): `generate_ago_pattern 30` is not the literal
`"ststsb stststs b ststsb st"` claimed by the spec — that string contains only
19 notes, not 30. -/
theorem ago_pattern_30_ne_spec_literal :
    generate_ago_pattern 30 ≠ "ststsb stststs b ststsb st" := by decide

/-- C3 (amended): `generate_ago_pattern 30` is exactly
`"ststsb stststs b ststsb stststs b ststsb s"` — two full octaves plus a
6-note part-octave. -/
theorem ago_pattern_30_value :
    generate_ago_pattern 30 = "ststsb stststs b ststsb stststs b ststsb s" := by decide

/-- C10: the hand-duplicated AGO pattern generators in `console_pedalboard`
and `technical_drawing` return identical strings for every note count. -/
theorem ago_pattern_duplicates_agree (number_of_notes : Nat) :
    generate_ago_pattern number_of_notes =
      generate_ago_pattern_for_exploded number_of_notes := by
  unfold generate_ago_pattern generate_ago_pattern_for_exploded
  simp [agoTailLoop_eq_exploded]

/-! ## utils.create_board: 2D profile, hole placement, placement pipeline

Dimensions of the repository are machine floats; they are modelled here as
exact rationals.  `create_board` hands the kernel: a list of profile vertices,
for each hole a sketch location / shape / cut depth, and a
rotate-rotate-rotate-translate placement; those data are embedded below. -/

/-- Profile vertices built by `utils.create_board` (build123d version):
`min_height` is forced to `max_height` when zero, and point 3 (the slanted
vertex) is dropped when `min_width = 0`. -/
def create_board_points (max_width max_height min_width min_height : ℚ) :
    List (ℚ × ℚ) :=
  let mh := if min_height = 0 then max_height else min_height
  let p0 : ℚ × ℚ := (0, 0)
  let p1 : ℚ × ℚ := (max_width, 0)
  let p2 : ℚ × ℚ := (max_width, mh)
  let p3 : ℚ × ℚ := (min_width, max_height)
  let p4 : ℚ × ℚ := (0, max_height)
  if min_width = 0 then [p0, p1, p2, p4] else [p0, p1, p2, p3, p4]

/-- Profile vertices exactly as the spec words them: `(0,0) → (max_width,0) →
(max_width,min_height) → [(min_width,max_height) if min_width ≠ 0] →
(0,max_height)`, with `min_height` first replaced by `max_height` when 0. -/
def spec_profile_points (max_width max_height min_width min_height : ℚ) :
    List (ℚ × ℚ) :=
  let mh := if min_height = 0 then max_height else min_height
  [((0 : ℚ), (0 : ℚ)), (max_width, 0), (max_width, mh)]
    ++ (if min_width ≠ 0 then [(min_width, max_height)] else [])
    ++ [(0, max_height)]

/-- C5: `create_board`'s profile is exactly the vertex sequence the spec
states, and the 500×300 board with `min_width = 350`, `min_height = 150` is a
pentagon with an edge from `(500,150)` to `(350,300)`. -/
theorem create_board_profile_spec :
    (∀ max_width max_height min_width min_height : ℚ,
        create_board_points max_width max_height min_width min_height =
          spec_profile_points max_width max_height min_width min_height)
    ∧ create_board_points 500 300 350 150 =
        [(0, 0), (500, 0), (500, 150), (350, 300), (0, 300)]
    ∧ (create_board_points 500 300 350 150).length = 5
    ∧ [((500 : ℚ), (150 : ℚ)), (350, 300)] <:+: create_board_points 500 300 350 150 := by
  refine ⟨fun mw mh nw nh => ?_, by decide, by decide, ?_⟩
  · by_cases h : nw = 0 <;> simp [create_board_points, spec_profile_points, h]
  · exact ⟨[((0 : ℚ), (0 : ℚ)), (500, 0)], [((0 : ℚ), (300 : ℚ))], by decide⟩

/-- Sketch location used by `utils.create_board` for a rectangular or circular
hole at hole coordinates `(x, y)`: the hole's own center, offset by
`x_offset = -max_width/2`, `y_offset = -max_height/2`. -/
def hole_center (max_width max_height x y : ℚ) : ℚ × ℚ :=
  (x + -max_width / 2, y + -max_height / 2)

/-- Extrusion amount of each hole cut in `utils.create_board`
(`extrude(amount=-board_thickness, mode=Mode.SUBTRACT)`): the full board
thickness. -/
def hole_cut_depth (board_thickness : ℚ) : ℚ := board_thickness

/-- Radius of a circular hole in `utils.create_board` (`Circle(diameter / 2)`). -/
def circular_hole_radius (diameter : ℚ) : ℚ := diameter / 2

/-- Offset applied by `organizer.create_board` (CadQuery version) when placing
a hole workplane: `cq.Vector(x + x_offset, y + y_offset)` with the same
`-max_width/2`, `-max_height/2` offsets. -/
def organizer_hole_center (max_width max_height x y : ℚ) : ℚ × ℚ :=
  (x + -max_width / 2, y + -max_height / 2)

/-- C6: every hole is centered at `(x - max_width/2, y - max_height/2)` in the
profile's corner-origin frame, cut through the full thickness, with circular
radius `diameter/2`; the CadQuery version uses the identical centering. -/
theorem create_board_hole_placement
    (max_width max_height x y diameter board_thickness : ℚ) :
    hole_center max_width max_height x y = (x - max_width / 2, y - max_height / 2)
    ∧ organizer_hole_center max_width max_height x y
        = (x - max_width / 2, y - max_height / 2)
    ∧ hole_cut_depth board_thickness = board_thickness
    ∧ circular_hole_radius diameter = diameter / 2 := by
  refine ⟨?_, ?_, rfl, rfl⟩ <;>
    · simp [hole_center, organizer_hole_center, Prod.ext_iff]
      exact ⟨by ring, by ring⟩

/-! ### Placement pipeline (rotations then translation)

The repository rotates by angles in degrees; the trigonometric evaluation is
done by the CAD kernel.  The pipeline is therefore embedded relative to an
arbitrary `trig : ℚ → ℚ × ℚ` mapping an angle in degrees to its
(cosine, sine); the only fact needed about it is `trig 0 = (1, 0)`. -/

/-- Rotation about the world X axis, given the angle's (cosine, sine). -/
def rotX (c s : ℚ) : ℚ × ℚ × ℚ → ℚ × ℚ × ℚ
  | (x, y, z) => (x, c * y - s * z, s * y + c * z)

/-- Rotation about the world Y axis, given the angle's (cosine, sine). -/
def rotY (c s : ℚ) : ℚ × ℚ × ℚ → ℚ × ℚ × ℚ
  | (x, y, z) => (c * x + s * z, y, -s * x + c * z)

/-- Rotation about the world Z axis, given the angle's (cosine, sine). -/
def rotZ (c s : ℚ) : ℚ × ℚ × ℚ → ℚ × ℚ × ℚ
  | (x, y, z) => (c * x - s * y, s * x + c * y, z)

/-- Placement pipeline of `utils.create_board` (build123d version): each of
the three world-axis rotations is applied only when its angle is nonzero
(`if rotation[i] != 0`), then the board is translated by `position`. -/
def place_board_skip (trig : ℚ → ℚ × ℚ) (rotation position p : ℚ × ℚ × ℚ) :
    ℚ × ℚ × ℚ :=
  let p1 := if rotation.1 ≠ 0
    then rotX (trig rotation.1).1 (trig rotation.1).2 p else p
  let p2 := if rotation.2.1 ≠ 0
    then rotY (trig rotation.2.1).1 (trig rotation.2.1).2 p1 else p1
  let p3 := if rotation.2.2 ≠ 0
    then rotZ (trig rotation.2.2).1 (trig rotation.2.2).2 p2 else p2
  (p3.1 + position.1, p3.2.1 + position.2.1, p3.2.2 + position.2.2)

/-- Placement pipeline of `organizer.create_board` (CadQuery version), which
is also the spec's wording: rotate about world X, then Y, then Z,
unconditionally, then translate by `position`. -/
def place_board_full (trig : ℚ → ℚ × ℚ) (rotation position p : ℚ × ℚ × ℚ) :
    ℚ × ℚ × ℚ :=
  let p1 := rotX (trig rotation.1).1 (trig rotation.1).2 p
  let p2 := rotY (trig rotation.2.1).1 (trig rotation.2.1).2 p1
  let p3 := rotZ (trig rotation.2.2).1 (trig rotation.2.2).2 p2
  (p3.1 + position.1, p3.2.1 + position.2.1, p3.2.2 + position.2.2)

/-- C7: as long as a zero-degree angle has cosine 1 and sine 0, skipping
zero-angle rotations (build123d version) gives the same placement as always
rotating X, then Y, then Z, then translating (CadQuery version / spec). -/
theorem place_board_skip_eq_full (trig : ℚ → ℚ × ℚ)
    (rotation position p : ℚ × ℚ × ℚ) (h : trig 0 = (1, 0)) :
    place_board_skip trig rotation position p =
      place_board_full trig rotation position p := by
  obtain ⟨rx, ry, rz⟩ := rotation
  obtain ⟨px, py, pz⟩ := p
  simp only [place_board_skip, place_board_full]
  by_cases hx : rx = 0 <;> by_cases hy : ry = 0 <;> by_cases hz : rz = 0 <;>
    simp [hx, hy, hz, h, rotX, rotY, rotZ]

/-- Witness for C7 with a concrete cosine/sine table, rotation `(0, 90, 0)`
and point `(1, 2, 3)`. -/
theorem place_board_skip_eq_full_witness :
    place_board_skip (fun d => if d = 0 then (1, 0) else (0, 1)) (0, 90, 0)
        (4, 5, 6) (1, 2, 3) =
      place_board_full (fun d => if d = 0 then (1, 0) else (0, 1)) (0, 90, 0)
        (4, 5, 6) (1, 2, 3) :=
  place_board_skip_eq_full (fun d => if d = 0 then (1, 0) else (0, 1))
    (0, 90, 0) (4, 5, 6) (1, 2, 3) (by decide)

/-! ## Keyboard white-key math (keyboard.py) -/

/-- `white_key_pattern` of `keyboard.calculate_white_keys`: one octave from C,
`True` at white keys (C D E F G A B), `False` at the five sharps. -/
def white_key_pattern : List Bool :=
  [true, false, true, false, true, true, false, true, false, true, false, true]

/-- `keyboard.calculate_white_keys`: counts indices `i < total_keys` with
`white_key_pattern[i % 12]` true. -/
def calculate_white_keys (total_keys : Nat) : Nat :=
  (List.range total_keys).countP (fun i => white_key_pattern.getD (i % 12) false)

/-- White-key width formula of `keyboard.generate_keyboard`:
`(total_width - (num_white_keys - 1) * key_gap) / num_white_keys`. -/
def white_key_width (total_width : ℚ) (num_white_keys : Nat) (key_gap : ℚ) : ℚ :=
  (total_width - ((num_white_keys : ℚ) - 1) * key_gap) / (num_white_keys : ℚ)

/-- C8: `calculate_white_keys` counts through the 12-periodic C-major pattern
(adding one key exactly at the white positions of the octave template); a
61-key manual has 36 white keys, and at `total_width = 870`, `key_gap = 1/2`
the white-key width is `(870 - 35·(1/2))/36 = 1705/72` mm (≈ 23.68). -/
theorem keyboard_white_key_math :
    (∀ k : Nat, calculate_white_keys (k + 1) =
        calculate_white_keys k +
          (if white_key_pattern.getD (k % 12) false then 1 else 0))
    ∧ calculate_white_keys 61 = 36
    ∧ white_key_width 870 (calculate_white_keys 61) (1 / 2) =
        (870 - 35 * (1 / 2)) / 36
    ∧ white_key_width 870 (calculate_white_keys 61) (1 / 2) = 1705 / 72 := by
  have h36 : calculate_white_keys 61 = 36 := by decide
  refine ⟨fun k => ?_, h36, ?_, ?_⟩
  · simp only [calculate_white_keys, List.range_succ, List.countP_append,
      List.countP_cons, List.countP_nil]
    by_cases h : white_key_pattern.getD (k % 12) false = true <;> simp [h]
  · rw [h36]; norm_num [white_key_width]
  · rw [h36]; norm_num [white_key_width]

/-! ## Pedalboard (console_pedalboard.py)

Parameters of `console_pedalboard.get_default_parameters`, flattened as
`DotDict` flattens them.  All numeric parameters are rationals, the note
count is a natural number, `sharp_cap_color_g` is the Boolean cap switch. -/

structure PedalParams where
  general_board_thickness_g : ℚ
  general_board_offset_g : ℚ
  number_of_notes_g : Nat
  short_pedal_width_g : ℚ
  tall_pedal_width_g : ℚ
  short_pedal_length_g : ℚ
  tall_pedal_length_g : ℚ
  pedal_height_g : ℚ
  pedal_thickness_g : ℚ
  pedal_spacing_g : ℚ
  base_height_g : ℚ
  base_depth_g : ℚ
  lateral_board_height_g : ℚ
  frame_side_height_g : ℚ
  frame_side_depth_g : ℚ
  frame_back_height_g : ℚ
  frame_back_depth_g : ℚ
  frame_front_height_g : ℚ
  sharp_cap_length_end_g : ℚ
  sharp_cap_length_middle_g : ℚ
  sharp_cap_arc_g : ℚ
  sharp_cap_height_ratio_g : ℚ
  sharp_cap_notch_height_g : ℚ
  sharp_cap_notch_width_g : ℚ
  sharp_cap_color_g : Bool

/-- The values of `console_pedalboard.get_default_parameters`
(25.4 mm = 127/5). -/
def default_pedal_params : PedalParams where
  general_board_thickness_g := 18
  general_board_offset_g := 5
  number_of_notes_g := 30
  short_pedal_width_g := 127 / 5
  tall_pedal_width_g := 127 / 5
  short_pedal_length_g := 700
  tall_pedal_length_g := 700
  pedal_height_g := 150
  pedal_thickness_g := 127 / 5
  pedal_spacing_g := 3
  base_height_g := 100
  base_depth_g := 200
  lateral_board_height_g := 250
  frame_side_height_g := 120
  frame_side_depth_g := 0
  frame_back_height_g := 100
  frame_back_depth_g := 80
  frame_front_height_g := 40
  sharp_cap_length_end_g := 150
  sharp_cap_length_middle_g := 100
  sharp_cap_arc_g := 1
  sharp_cap_height_ratio_g := 2
  sharp_cap_notch_height_g := 3 / 4
  sharp_cap_notch_width_g := 3 / 4
  sharp_cap_color_g := true

/-- The AGO pattern with blanks kept but spaces removed
(`generate_ago_pattern(...).replace(" ", "")`), as both
`generate_board_list` and `generate_console` compute it. -/
def pedal_pattern (p : PedalParams) : List Char :=
  (generate_ago_pattern p.number_of_notes_g).data.filter (fun c => !(c == ' '))

/-- Width consumed along X by one pattern character (`s`/`t`/`b` each advance
by pedal width plus spacing; `b` advances by a short-pedal slot). -/
def pedal_slot_width (p : PedalParams) (c : Char) : ℚ :=
  if c = 's' then p.short_pedal_width_g + p.pedal_spacing_g
  else if c = 't' then p.tall_pedal_width_g + p.pedal_spacing_g
  else if c = 'b' then p.short_pedal_width_g + p.pedal_spacing_g
  else 0

/-- `total_width` accumulated over a pattern. -/
def pedal_total_width (p : PedalParams) (pat : List Char) : ℚ :=
  (pat.map (pedal_slot_width p)).sum

/-- Frame side depth as `generate_board_list` computes it
(`p.frame_side_depth_g if p.frame_side_depth_g > 0 else max(...) + back`). -/
def list_frame_side_depth (p : PedalParams) : ℚ :=
  if 0 < p.frame_side_depth_g then p.frame_side_depth_g
  else max p.short_pedal_length_g p.tall_pedal_length_g + p.frame_back_depth_g

/-- Frame side depth as `generate_console` computes it
(auto-calculated only when the parameter is exactly 0). -/
def console_frame_side_depth (p : PedalParams) : ℚ :=
  if p.frame_side_depth_g = 0 then
    max p.short_pedal_length_g p.tall_pedal_length_g + p.frame_back_depth_g
  else p.frame_side_depth_g

/-- One cut-list record of `generate_board_list` (name and the three recorded
dimensions; the purely descriptive `description`/`notes` strings are not
modelled). -/
structure BoardRec where
  name : String
  width : ℚ
  height : ℚ
  thickness : ℚ
deriving DecidableEq, Repr

/-- `console_pedalboard.generate_board_list`: records for short pedals, tall
pedals, sharp caps, the two side cheeks, and the optional back and front
boards, with the dimension formulas of the source. -/
def pedalboard_board_list (p : PedalParams) : List BoardRec :=
  let pat := pedal_pattern p
  let short_count := pat.count 's'
  let tall_count := pat.count 't'
  let total_width := pedal_total_width p pat
  let frame_side_depth := list_frame_side_depth p
  let shorts : List BoardRec := if 0 < short_count then
    [⟨"Short Pedals", p.short_pedal_width_g, p.short_pedal_length_g,
      p.pedal_thickness_g⟩] else []
  let talls : List BoardRec := if 0 < tall_count then
    [⟨"Tall Pedals", p.tall_pedal_width_g, p.tall_pedal_length_g,
      p.pedal_thickness_g⟩] else []
  let caps : List BoardRec := if 0 < tall_count ∧ p.sharp_cap_color_g then
    [⟨"Sharp Caps", p.tall_pedal_width_g, p.sharp_cap_length_end_g,
      p.pedal_thickness_g * 2⟩] else []
  let sides : List BoardRec :=
    [⟨"Frame Side Left", frame_side_depth, p.frame_side_height_g,
      p.general_board_thickness_g⟩,
     ⟨"Frame Side Right", frame_side_depth, p.frame_side_height_g,
      p.general_board_thickness_g⟩]
  let backs : List BoardRec := if 0 < p.frame_back_height_g then
    [⟨"Frame Back", total_width + 2 * p.general_board_thickness_g,
      p.frame_back_height_g, p.general_board_thickness_g⟩] else []
  let fronts : List BoardRec := if 0 < p.frame_front_height_g then
    [⟨"Frame Front", total_width + 2 * p.general_board_thickness_g,
      p.frame_front_height_g, p.general_board_thickness_g⟩] else []
  shorts ++ talls ++ caps ++ sides ++ backs ++ fronts

/-- One `create_board(...)` call of `generate_console`: the dimension,
profile, position and rotation arguments, the keyword arguments passed beyond
`utils.create_board`'s signature, and a tag recording which board the call
builds. -/
structure BoardCall where
  tag : String
  max_width : ℚ
  max_height : ℚ
  board_thickness : ℚ
  min_width : ℚ
  min_height : ℚ
  position : ℚ × ℚ × ℚ
  rotation : ℚ × ℚ × ℚ
  extra_kw : List String
deriving DecidableEq, Repr

/-- `pedal_base_z = 50` of `generate_console`. -/
def pedal_base_z : ℚ := 50

/-- `enclosure_base_z = 5` of `generate_console`. -/
def enclosure_base_z : ℚ := 5

/-- Cap length of the `sharp_index`-th of `total_sharps` sharp caps
(`generate_console`): parametric arc interpolation between the end length and
the middle length, linear when `sharp_cap_arc == 0`, parabolic otherwise. -/
def sharp_cap_length (cap_end cap_mid arc : ℚ) (total_sharps sharp_index : Nat) : ℚ :=
  let t : ℚ := if 1 < total_sharps
    then (sharp_index : ℚ) / ((total_sharps : ℚ) - 1) else 1 / 2
  let normalized := 2 * t - 1
  let arc_factor := if arc = 0 then 1 - |normalized| else 1 - normalized * normalized
  cap_end - (cap_end - cap_mid) * arc_factor

/-- The per-character pedal loop of `generate_console`: walks the (reversed)
pattern advancing `current_x`, emitting a short or tall pedal per note, a
sharp cap on top of each tall pedal when caps are enabled (the cap call passes
the extra keyword argument `material`), and returning the pedal calls and the
cap calls as the two separate lists the source keeps (`parts`, `sharp_caps`). -/
def pedal_loop (p : PedalParams) (add_caps : Bool) (total_sharps : Nat) :
    List Char → ℚ → Nat → List BoardCall × List BoardCall
  | [], _, _ => ([], [])
  | c :: rest, current_x, sharp_index =>
    if c = 's' then
      let call : BoardCall :=
        ⟨"short_pedal", p.short_pedal_length_g, p.pedal_thickness_g * 2,
          p.short_pedal_width_g, 0, 0,
          (current_x, -p.base_depth_g - p.short_pedal_length_g, pedal_base_z),
          (0, 0, 0), []⟩
      let res := pedal_loop p add_caps total_sharps rest
        (current_x + p.short_pedal_width_g + p.pedal_spacing_g) sharp_index
      (call :: res.1, res.2)
    else if c = 't' then
      let tall_call : BoardCall :=
        ⟨"tall_pedal", p.tall_pedal_length_g, p.pedal_thickness_g,
          p.tall_pedal_width_g, 0, 0,
          (current_x, -p.base_depth_g - p.tall_pedal_length_g, pedal_base_z),
          (0, 0, 0), []⟩
      if add_caps ∧ 0 < total_sharps then
        let len := sharp_cap_length p.sharp_cap_length_end_g
          p.sharp_cap_length_middle_g p.sharp_cap_arc_g total_sharps sharp_index
        let cap_height := p.pedal_thickness_g * p.sharp_cap_height_ratio_g
        let cap_call : BoardCall :=
          ⟨"sharp_cap", len, cap_height, p.tall_pedal_width_g,
            len * p.sharp_cap_notch_width_g,
            cap_height * p.sharp_cap_notch_height_g,
            (current_x, -p.base_depth_g - p.tall_pedal_length_g,
              pedal_base_z + p.pedal_thickness_g),
            (0, 0, 0), ["material"]⟩
        let res := pedal_loop p add_caps total_sharps rest
          (current_x + p.tall_pedal_width_g + p.pedal_spacing_g) (sharp_index + 1)
        (tall_call :: res.1, cap_call :: res.2)
      else
        let res := pedal_loop p add_caps total_sharps rest
          (current_x + p.tall_pedal_width_g + p.pedal_spacing_g) sharp_index
        (tall_call :: res.1, res.2)
    else if c = 'b' then
      pedal_loop p add_caps total_sharps rest
        (current_x + p.short_pedal_width_g + p.pedal_spacing_g) sharp_index
    else
      pedal_loop p add_caps total_sharps rest current_x sharp_index

/-- `console_pedalboard.generate_console` as the ordered list of its
`create_board` calls: the pedal loop over the reversed pattern, the two side
cheeks, the optional back and front boards, and finally the sharp caps
(`all_parts = parts + sharp_caps`). -/
def pedalboard_console_calls (p : PedalParams) : List BoardCall :=
  let pat := (pedal_pattern p).reverse
  let total_width := pedal_total_width p pat
  let total_sharps := pat.count 't'
  let res := pedal_loop p p.sharp_cap_color_g total_sharps pat (-total_width / 2) 0
  let frame_side_depth := console_frame_side_depth p
  let thick := p.general_board_thickness_g
  let left_call : BoardCall :=
    ⟨"frame_left", frame_side_depth, p.frame_side_height_g, thick, 0, 0,
      (-total_width / 2 - thick, -p.base_depth_g - frame_side_depth,
        enclosure_base_z), (0, 0, 0), []⟩
  let right_call : BoardCall :=
    ⟨"frame_right", frame_side_depth, p.frame_side_height_g, thick, 0, 0,
      (total_width / 2, -p.base_depth_g - frame_side_depth, enclosure_base_z),
      (0, 0, 0), []⟩
  let back_calls : List BoardCall := if 0 < p.frame_back_height_g then
    [⟨"frame_back", total_width + 2 * thick, p.frame_back_height_g, thick, 0, 0,
      (total_width / 2 + thick, -p.base_depth_g - frame_side_depth,
        enclosure_base_z), (0, 0, 90), []⟩] else []
  let front_calls : List BoardCall := if 0 < p.frame_front_height_g then
    [⟨"frame_front", total_width + 2 * thick, p.frame_front_height_g, thick, 0, 0,
      (total_width / 2 + thick, -p.base_depth_g, enclosure_base_z),
      (0, 0, 90), []⟩] else []
  (res.1 ++ [left_call, right_call] ++ back_calls ++ front_calls) ++ res.2

/-! ## Keyword-argument interface of utils.create_board (C1)

Python raises `TypeError` when a call passes a keyword argument that the
callee's signature does not accept.  `utils.create_board` accepts exactly the
nine parameters of its `def` line; each per-variant `generate_console` is
modelled by the list of keyword-argument names of its `create_board` calls, in
source order.  Those name lists are literal in the source and do not depend on
the parameter set. -/

/-- Parameter names accepted by `utils.create_board`. -/
def utils_create_board_kw : List String :=
  ["max_width", "max_height", "board_thickness", "position", "rotation",
   "min_width", "min_height", "rectangular_holes", "circular_holes"]

/-- A Python call with these keyword-argument names raises `TypeError` iff
some name is not among `utils.create_board`'s parameters. -/
def call_raises_type_error (kw : List String) : Bool :=
  kw.any (fun k => !(utils_create_board_kw.contains k))

/-- Keyword names common to every `create_board` call of the bench, normal
and vertical consoles. -/
def base_call_kw : List String :=
  ["max_width", "max_height", "board_thickness", "position", "rotation"]

/-- Keyword names of each of the 8 `create_board` calls in
`console_bench.generate_console`: all pass `show_dimensions=show_dims`. -/
def bench_console_call_kwargs : List (List String) :=
  List.replicate 8 (base_call_kw ++ ["show_dimensions"])

/-- Keyword names of the 11 `create_board` calls in
`console_normal.generate_console`, in source order: every call passes
`show_dimensions`; call 4 adds `rectangular_holes`, calls 6 and 7 add
`min_width`/`min_height`. -/
def normal_console_call_kwargs : List (List String) :=
  [base_call_kw ++ ["show_dimensions"],
   base_call_kw ++ ["show_dimensions"],
   base_call_kw ++ ["show_dimensions"],
   base_call_kw ++ ["rectangular_holes", "show_dimensions"],
   base_call_kw ++ ["show_dimensions"],
   ["max_width", "max_height", "min_width", "min_height", "board_thickness",
    "position", "rotation", "show_dimensions"],
   ["max_width", "max_height", "min_width", "min_height", "board_thickness",
    "position", "rotation", "show_dimensions"],
   base_call_kw ++ ["show_dimensions"],
   base_call_kw ++ ["show_dimensions"],
   base_call_kw ++ ["show_dimensions"],
   base_call_kw ++ ["show_dimensions"]]

/-- Keyword names of the 24 `create_board` calls in
`console_vertical.generate_console`, in source order: every call passes
`show_dimensions`; calls 6, 22 and 23 add `rectangular_holes`, calls 9 and 11
add `circular_holes`. -/
def vertical_console_call_kwargs : List (List String) :=
  [base_call_kw ++ ["show_dimensions"],
   base_call_kw ++ ["show_dimensions"],
   base_call_kw ++ ["show_dimensions"],
   base_call_kw ++ ["show_dimensions"],
   base_call_kw ++ ["show_dimensions"],
   base_call_kw ++ ["rectangular_holes", "show_dimensions"],
   base_call_kw ++ ["show_dimensions"],
   base_call_kw ++ ["show_dimensions"],
   base_call_kw ++ ["circular_holes", "show_dimensions"],
   base_call_kw ++ ["show_dimensions"],
   base_call_kw ++ ["circular_holes", "show_dimensions"],
   base_call_kw ++ ["show_dimensions"],
   base_call_kw ++ ["show_dimensions"],
   base_call_kw ++ ["show_dimensions"],
   base_call_kw ++ ["show_dimensions"],
   base_call_kw ++ ["show_dimensions"],
   base_call_kw ++ ["show_dimensions"],
   base_call_kw ++ ["show_dimensions"],
   base_call_kw ++ ["show_dimensions"],
   base_call_kw ++ ["show_dimensions"],
   base_call_kw ++ ["show_dimensions"],
   base_call_kw ++ ["rectangular_holes", "show_dimensions"],
   base_call_kw ++ ["rectangular_holes", "show_dimensions"],
   base_call_kw ++ ["show_dimensions"]]

/-- `console_pedalboard.generate_console` raises `TypeError` iff some of its
`create_board` calls passes a keyword argument `utils.create_board` does not
accept. -/
def pedalboard_console_raises (p : PedalParams) : Bool :=
  (pedalboard_console_calls p).any (fun c => call_raises_type_error c.extra_kw)

/-- Every pedal or frame call of the pedal loop passes no keyword argument
beyond `utils.create_board`'s signature; only cap calls do. -/
theorem pedal_loop_parts_kw (p : PedalParams) (a : Bool) (N : Nat) :
    ∀ (xs : List Char) (x : ℚ) (i : Nat),
      ∀ cc ∈ (pedal_loop p a N xs x i).1, cc.extra_kw = [] := by
  intro xs
  induction xs with
  | nil => intro x i cc h; simp [pedal_loop] at h
  | cons c rest ih =>
    intro x i cc h
    by_cases hs : c = 's'
    · subst hs
      simp only [pedal_loop, if_pos rfl] at h
      rcases List.mem_cons.mp h with rfl | hm
      · rfl
      · exact ih _ _ _ hm
    · by_cases ht : c = 't'
      · subst ht
        by_cases hcap : a = true ∧ 0 < N
        · simp only [pedal_loop, if_neg (by decide : ¬('t' : Char) = 's'),
            if_pos rfl, if_pos hcap] at h
          rcases List.mem_cons.mp h with rfl | hm
          · rfl
          · exact ih _ _ _ hm
        · simp only [pedal_loop, if_neg (by decide : ¬('t' : Char) = 's'),
            if_pos rfl, if_neg hcap] at h
          rcases List.mem_cons.mp h with rfl | hm
          · rfl
          · exact ih _ _ _ hm
      · by_cases hb : c = 'b'
        · subst hb
          simp only [pedal_loop, if_neg (by decide : ¬('b' : Char) = 's'),
            if_neg (by decide : ¬('b' : Char) = 't'), if_pos rfl] at h
          exact ih _ _ _ h
        · simp only [pedal_loop, if_neg hs, if_neg ht, if_neg hb] at h
          exact ih _ _ _ h

/-- The cap list of the pedal loop contains a `TypeError`-raising call
(`material=` keyword) iff caps are enabled and the pattern holds a tall
pedal. -/
theorem pedal_loop_caps_raise (p : PedalParams) (a : Bool) (N : Nat) :
    ∀ (xs : List Char) (x : ℚ) (i : Nat),
      (pedal_loop p a N xs x i).2.any (fun c => call_raises_type_error c.extra_kw)
        = ((a && decide (0 < N)) && xs.contains 't') := by
  intro xs
  induction xs with
  | nil => intro x i; simp [pedal_loop]
  | cons c rest ih =>
    intro x i
    by_cases hs : c = 's'
    · subst hs
      simp only [pedal_loop, if_pos rfl]
      have hne : (('t' : Char) == 's') = false := by decide
      simp [ih, List.contains_cons, hne]
    · by_cases ht : c = 't'
      · subst ht
        by_cases hcap : a = true ∧ 0 < N
        · simp only [pedal_loop, if_neg (by decide : ¬('t' : Char) = 's'),
            if_pos rfl, if_pos hcap, List.any_cons]
          have h1 : call_raises_type_error ["material"] = true := by decide
          simp [h1, hcap.1, hcap.2, List.contains_cons]
        · simp only [pedal_loop, if_neg (by decide : ¬('t' : Char) = 's'),
            if_pos rfl, if_neg hcap]
          have hA : (a && decide (0 < N)) = false := by
            cases a with
            | false => simp
            | true =>
              simp only [Bool.true_and, decide_eq_false_iff_not]
              exact fun hN => hcap ⟨rfl, hN⟩
          simp [ih, hA]
      · by_cases hb : c = 'b'
        · subst hb
          simp only [pedal_loop, if_neg (by decide : ¬('b' : Char) = 's'),
            if_neg (by decide : ¬('b' : Char) = 't'), if_pos rfl]
          have hne : (('t' : Char) == 'b') = false := by decide
          simp [ih, List.contains_cons, hne]
        · simp only [pedal_loop, if_neg hs, if_neg ht, if_neg hb]
          have hne : ¬('t' = c) := Ne.symm ht
          simp [ih, List.contains_cons, hne]

/-- C1: every `create_board` call of the bench, normal and vertical
`generate_console` passes the keyword `show_dimensions`, which
`utils.create_board` does not accept, so each of the three raises `TypeError`
at its first board for every parameter set and never returns a `Compound`;
and the pedalboard `generate_console` raises `TypeError` exactly when sharp
caps are enabled and the pattern has a tall pedal, because the cap call passes
the unsupported keyword `material`. -/
theorem create_board_keyword_type_error :
    (bench_console_call_kwargs.length = 8
      ∧ bench_console_call_kwargs.all call_raises_type_error = true)
    ∧ (normal_console_call_kwargs.length = 11
      ∧ normal_console_call_kwargs.all call_raises_type_error = true)
    ∧ (vertical_console_call_kwargs.length = 24
      ∧ vertical_console_call_kwargs.all call_raises_type_error = true)
    ∧ ∀ p : PedalParams,
        pedalboard_console_raises p
          = (p.sharp_cap_color_g && (pedal_pattern p).contains 't') := by
  refine ⟨⟨by decide, by decide⟩, ⟨by decide, by decide⟩, ⟨by decide, by decide⟩,
    fun p => ?_⟩
  have hparts : ∀ (xs : List Char) (x : ℚ) (i : Nat),
      (pedal_loop p p.sharp_cap_color_g ((pedal_pattern p).reverse.count 't')
          xs x i).1.any (fun c => call_raises_type_error c.extra_kw) = false := by
    intro xs x i
    rw [List.any_eq_false]
    intro cc hcc
    rw [pedal_loop_parts_kw p _ _ xs x i cc hcc]
    decide
  simp only [pedalboard_console_raises, pedalboard_console_calls,
    List.any_append, hparts, pedal_loop_caps_raise, List.any_cons, List.any_nil,
    Bool.or_false, Bool.false_or]
  have hfr : call_raises_type_error [] = false := rfl
  have hback : (if 0 < p.frame_back_height_g then
      [({ tag := "frame_back",
          max_width := pedal_total_width p (pedal_pattern p).reverse
            + 2 * p.general_board_thickness_g,
          max_height := p.frame_back_height_g,
          board_thickness := p.general_board_thickness_g,
          min_width := 0, min_height := 0,
          position := (pedal_total_width p (pedal_pattern p).reverse / 2
              + p.general_board_thickness_g,
            -p.base_depth_g - console_frame_side_depth p, enclosure_base_z),
          rotation := (0, 0, 90), extra_kw := [] } : BoardCall)] else
      []).any (fun c => call_raises_type_error c.extra_kw) = false := by
    split_ifs <;> simp [hfr]
  have hfront : (if 0 < p.frame_front_height_g then
      [({ tag := "frame_front",
          max_width := pedal_total_width p (pedal_pattern p).reverse
            + 2 * p.general_board_thickness_g,
          max_height := p.frame_front_height_g,
          board_thickness := p.general_board_thickness_g,
          min_width := 0, min_height := 0,
          position := (pedal_total_width p (pedal_pattern p).reverse / 2
              + p.general_board_thickness_g,
            -p.base_depth_g, enclosure_base_z),
          rotation := (0, 0, 90), extra_kw := [] } : BoardCall)] else
      []).any (fun c => call_raises_type_error c.extra_kw) = false := by
    split_ifs <;> simp [hfr]
  rw [hback, hfront]
  simp only [hfr, Bool.or_false, Bool.false_or]
  by_cases hmem : 't' ∈ pedal_pattern p
  · have hrev : ('t' : Char) ∈ (pedal_pattern p).reverse := by
      rw [List.mem_reverse]; exact hmem
    have hcount : 0 < (pedal_pattern p).reverse.count 't' :=
      List.count_pos_iff.mpr hrev
    simp [hmem, hrev, hcount]
  · have hrev : ¬('t' : Char) ∈ (pedal_pattern p).reverse := by
      rw [List.mem_reverse]; exact hmem
    simp [hmem, hrev]

/-! ## Cut-list vs layout dimensions (C4) and the sharp-cap arc (C9) -/

/-- Dimension check of one cut-list record against the parameter formulas the
record is built from (`generate_board_list`). -/
def board_list_record_dims_ok (p : PedalParams) (r : BoardRec) : Bool :=
  if r.name = "Short Pedals" then
    r.width == p.short_pedal_width_g && r.height == p.short_pedal_length_g
      && r.thickness == p.pedal_thickness_g
  else if r.name = "Tall Pedals" then
    r.width == p.tall_pedal_width_g && r.height == p.tall_pedal_length_g
      && r.thickness == p.pedal_thickness_g
  else if r.name = "Sharp Caps" then
    r.width == p.tall_pedal_width_g && r.height == p.sharp_cap_length_end_g
      && r.thickness == p.pedal_thickness_g * 2
  else if r.name = "Frame Side Left" ∨ r.name = "Frame Side Right" then
    r.width == list_frame_side_depth p && r.height == p.frame_side_height_g
      && r.thickness == p.general_board_thickness_g
  else if r.name = "Frame Back" then
    r.width == pedal_total_width p (pedal_pattern p) + 2 * p.general_board_thickness_g
      && r.height == p.frame_back_height_g
      && r.thickness == p.general_board_thickness_g
  else if r.name = "Frame Front" then
    r.width == pedal_total_width p (pedal_pattern p) + 2 * p.general_board_thickness_g
      && r.height == p.frame_front_height_g
      && r.thickness == p.general_board_thickness_g
  else false

/-- Dimension check of one `generate_console` call against the parameter
formulas the call is built from: note the short pedal's Z dimension is
`pedal_thickness * 2` (twice the cut-list thickness) and the cap height is
`pedal_thickness * sharp_cap_height_ratio` (the cut list records
`pedal_thickness * 2`). -/
def console_call_dims_ok (p : PedalParams) (c : BoardCall) : Bool :=
  if c.tag = "short_pedal" then
    c.board_thickness == p.short_pedal_width_g
      && c.max_width == p.short_pedal_length_g
      && c.max_height == p.pedal_thickness_g * 2
  else if c.tag = "tall_pedal" then
    c.board_thickness == p.tall_pedal_width_g
      && c.max_width == p.tall_pedal_length_g
      && c.max_height == p.pedal_thickness_g
  else if c.tag = "sharp_cap" then
    c.board_thickness == p.tall_pedal_width_g
      && c.max_height == p.pedal_thickness_g * p.sharp_cap_height_ratio_g
  else if c.tag = "frame_left" ∨ c.tag = "frame_right" then
    c.max_width == console_frame_side_depth p
      && c.max_height == p.frame_side_height_g
      && c.board_thickness == p.general_board_thickness_g
  else if c.tag = "frame_back" then
    c.max_width == pedal_total_width p (pedal_pattern p).reverse
        + 2 * p.general_board_thickness_g
      && c.max_height == p.frame_back_height_g
      && c.board_thickness == p.general_board_thickness_g
  else if c.tag = "frame_front" then
    c.max_width == pedal_total_width p (pedal_pattern p).reverse
        + 2 * p.general_board_thickness_g
      && c.max_height == p.frame_front_height_g
      && c.board_thickness == p.general_board_thickness_g
  else false

/-- Every call emitted by the pedal loop satisfies the dimension check. -/
theorem pedal_loop_call_dims (p : PedalParams) (a : Bool) (N : Nat) :
    ∀ (xs : List Char) (x : ℚ) (i : Nat),
      (∀ cc ∈ (pedal_loop p a N xs x i).1, console_call_dims_ok p cc = true)
      ∧ (∀ cc ∈ (pedal_loop p a N xs x i).2, console_call_dims_ok p cc = true) := by
  intro xs
  induction xs with
  | nil => intro x i; constructor <;> intro cc h <;> simp [pedal_loop] at h
  | cons c rest ih =>
    intro x i
    by_cases hs : c = 's'
    · subst hs
      simp only [pedal_loop, if_pos rfl]
      refine ⟨fun cc h => ?_, fun cc h => (ih _ _).2 cc h⟩
      rcases List.mem_cons.mp h with rfl | hm
      · simp [console_call_dims_ok]
      · exact (ih _ _).1 cc hm
    · by_cases ht : c = 't'
      · subst ht
        by_cases hcap : a = true ∧ 0 < N
        · simp only [pedal_loop, if_neg (by decide : ¬('t' : Char) = 's'),
            if_pos rfl, if_pos hcap]
          refine ⟨fun cc h => ?_, fun cc h => ?_⟩
          · rcases List.mem_cons.mp h with rfl | hm
            · simp [console_call_dims_ok]
            · exact (ih _ _).1 cc hm
          · rcases List.mem_cons.mp h with rfl | hm
            · simp [console_call_dims_ok]
            · exact (ih _ _).2 cc hm
        · simp only [pedal_loop, if_neg (by decide : ¬('t' : Char) = 's'),
            if_pos rfl, if_neg hcap]
          refine ⟨fun cc h => ?_, fun cc h => (ih _ _).2 cc h⟩
          rcases List.mem_cons.mp h with rfl | hm
          · simp [console_call_dims_ok]
          · exact (ih _ _).1 cc hm
      · by_cases hb : c = 'b'
        · subst hb
          simp only [pedal_loop, if_neg (by decide : ¬('b' : Char) = 's'),
            if_neg (by decide : ¬('b' : Char) = 't'), if_pos rfl]
          exact ih _ _
        · simp only [pedal_loop, if_neg hs, if_neg ht, if_neg hb]
          exact ih _ _

/-- C4 (counterexample): at the default parameters the Short Pedals cut-list
record is `(width, height, thickness) = (127/5, 700, 127/5)` while the
console's first short-pedal `create_board` call passes
`(max_width, max_height, board_thickness) = (700, 254/5, 127/5)`; the two
dimension triples are not equal as multisets (`254/5` vs `127/5`), so no
correspondence of record dimensions to call dimensions holds. -/
theorem pedalboard_dims_counterexample :
    (pedalboard_board_list default_pedal_params).head? =
      some ⟨"Short Pedals", 127 / 5, 700, 127 / 5⟩
    ∧ ((pedalboard_console_calls default_pedal_params).head?.map
        (fun c => (c.tag, c.max_width, c.max_height, c.board_thickness))) =
      some ("short_pedal", 700, 127 / 5 * 2, 127 / 5)
    ∧ ({127 / 5, 700, 127 / 5} : Multiset ℚ) ≠ {700, 127 / 5 * 2, 127 / 5} := by
  refine ⟨rfl, rfl, ?_⟩
  intro h
  have hc := congrArg (Multiset.count ((127 : ℚ) / 5)) h
  norm_num [Multiset.count_cons, Multiset.count_singleton] at hc

/-- C4 (amended): for every parameter set, cut-list records and console calls
each match the source's shared parameter formulas — tall pedals and the frame
boards agree exactly between the two, while the console's short-pedal Z
dimension is twice the recorded pedal thickness and the console's cap height
is `pedal_thickness * sharp_cap_height_ratio` against the recorded
`pedal_thickness * 2`; the two total-width sums agree, and the two
frame-side-depth formulas agree whenever `frame_side_depth_g ≥ 0`. -/
theorem pedalboard_list_console_dims (p : PedalParams) :
    (pedalboard_board_list p).all (board_list_record_dims_ok p) = true
    ∧ (pedalboard_console_calls p).all (console_call_dims_ok p) = true
    ∧ pedal_total_width p (pedal_pattern p).reverse
        = pedal_total_width p (pedal_pattern p)
    ∧ (0 ≤ p.frame_side_depth_g →
        console_frame_side_depth p = list_frame_side_depth p) := by
  refine ⟨?_, ?_, ?_, ?_⟩
  · simp only [pedalboard_board_list, List.all_append, Bool.and_eq_true]
    refine ⟨⟨⟨⟨⟨?_, ?_⟩, ?_⟩, ?_⟩, ?_⟩, ?_⟩ <;>
      first
        | (split_ifs <;> simp [board_list_record_dims_ok])
        | simp [board_list_record_dims_ok]
  · rw [List.all_eq_true]
    intro cc hcc
    simp only [pedalboard_console_calls, List.append_assoc, List.mem_append] at hcc
    rcases hcc with h | h | h | h | h
    · exact (pedal_loop_call_dims p _ _ _ _ _).1 cc h
    · rcases List.mem_cons.mp h with rfl | h2
      · simp [console_call_dims_ok]
      · rcases List.mem_singleton.mp h2 with rfl
        simp [console_call_dims_ok]
    · revert h
      split_ifs <;> intro h
      · rcases List.mem_singleton.mp h with rfl
        simp [console_call_dims_ok]
      · simp at h
    · revert h
      split_ifs <;> intro h
      · rcases List.mem_singleton.mp h with rfl
        simp [console_call_dims_ok]
      · simp at h
    · exact (pedal_loop_call_dims p _ _ _ _ _).2 cc h
  · simp [pedal_total_width, List.map_reverse, List.sum_reverse]
  · intro hsd
    rcases lt_or_eq_of_le hsd with hlt | heq
    · rw [console_frame_side_depth, list_frame_side_depth, if_neg (ne_of_gt hlt),
        if_pos hlt]
    · rw [console_frame_side_depth, list_frame_side_depth, if_pos heq.symm,
        if_neg (by rw [← heq]; exact lt_irrefl 0)]

/-- Witness for C4 (amended) at the default parameters. -/
theorem pedalboard_list_console_dims_witness :
    (pedalboard_board_list default_pedal_params).all
        (board_list_record_dims_ok default_pedal_params) = true
    ∧ (pedalboard_console_calls default_pedal_params).all
        (console_call_dims_ok default_pedal_params) = true
    ∧ console_frame_side_depth default_pedal_params
        = list_frame_side_depth default_pedal_params :=
  ⟨(pedalboard_list_console_dims default_pedal_params).1,
   (pedalboard_list_console_dims default_pedal_params).2.1,
   (pedalboard_list_console_dims default_pedal_params).2.2.2 (by decide)⟩

/-- C9: the sharp-cap length interpolation takes the end length at the first
and last cap (`t = 0` and `t = 1`) and the middle length at the centre cap
(`t = 1/2`, i.e. `2*i + 1 = total_sharps`, including the single-cap case),
for both the linear (`arc = 0`) and the parabolic arc. -/
theorem sharp_cap_length_endpoints (e m a : ℚ) (N i : Nat) :
    (2 ≤ N → sharp_cap_length e m a N 0 = e
      ∧ sharp_cap_length e m a N (N - 1) = e)
    ∧ (2 * i + 1 = N → sharp_cap_length e m a N i = m) := by
  constructor
  · intro hN
    have h1 : 1 < N := hN
    have hcast : ((N : ℚ) - 1) ≠ 0 := by
      have h : (1 : ℚ) < (N : ℚ) := by exact_mod_cast h1
      intro h0
      nlinarith
    have hc : ((N - 1 : Nat) : ℚ) = (N : ℚ) - 1 := by
      have h2 : 1 ≤ N := le_of_lt h1
      push_cast [h2]
      ring
    constructor
    · by_cases ha : a = 0
      · simp only [sharp_cap_length, if_pos h1, if_pos ha, Nat.cast_zero,
          zero_div]
        norm_num
      · simp only [sharp_cap_length, if_neg ha, if_pos h1, Nat.cast_zero,
          zero_div]
        ring
    · by_cases ha : a = 0
      · simp only [sharp_cap_length, if_pos h1, if_pos ha, hc,
          div_self hcast]
        norm_num
      · simp only [sharp_cap_length, if_neg ha, if_pos h1, hc,
          div_self hcast]
        ring
  · intro hi
    by_cases hN1 : 1 < N
    · have hipos : 0 < i := by omega
      have hiq : ((i : ℚ)) ≠ 0 := by
        exact_mod_cast Nat.pos_iff_ne_zero.mp hipos
      have hden : ((N : ℚ) - 1) = 2 * (i : ℚ) := by
        have hNq : (N : ℚ) = 2 * (i : ℚ) + 1 := by exact_mod_cast hi.symm
        rw [hNq]; ring
      have ht : (i : ℚ) / ((N : ℚ) - 1) = 1 / 2 := by
        rw [hden]
        field_simp
        ring
      by_cases ha : a = 0
      · simp only [sharp_cap_length, if_pos hN1, if_pos ha, ht]
        norm_num
      · simp only [sharp_cap_length, if_neg ha, if_pos hN1, ht]
        ring
    · have hN : N = 1 := by omega
      have hi0 : i = 0 := by omega
      subst hN
      subst hi0
      by_cases ha : a = 0
      · simp only [sharp_cap_length, if_neg (by decide : ¬(1 : Nat) > 1),
          if_pos ha]
        norm_num
      · simp only [sharp_cap_length, if_neg (by decide : ¬(1 : Nat) > 1),
          if_neg ha]
        ring

/-- Witness for C9 with five caps: caps 0 and 4 get the end length 150, the
centre cap 2 gets the middle length 100 (parabolic arc). -/
theorem sharp_cap_length_endpoints_witness :
    sharp_cap_length 150 100 1 5 0 = 150
    ∧ sharp_cap_length 150 100 1 5 4 = 150
    ∧ sharp_cap_length 150 100 1 5 2 = 100 :=
  ⟨((sharp_cap_length_endpoints 150 100 1 5 0).1 (by decide)).1,
   ((sharp_cap_length_endpoints 150 100 1 5 4).1 (by decide)).2,
   (sharp_cap_length_endpoints 150 100 1 5 2).2 (by decide)⟩

end Organizer
